import Mathlib

/-!
Shallow embedding of the WebAssembly runtime module of the yara-x excerpt
(src/wasm.rs): the module builder that assembles the WebAssembly module for a
set of compiled rules, the process-wide linker bindings, and the host
functions invoked from WebAssembly during a scan (rule_match, is_pat_match,
is_pat_match_at, is_pat_match_in), together with the per-scan mutable state
they act on.

Stateful Rust code is embedded as explicit state passing on a `ScanContext`
value; the wasm i64 offsets are embedded as `Int`, and the dense nonnegative
RuleId / PatternId handles as `Nat`.
-/

namespace YaraX

/-- Smallest value of a wasm i64 (Rust i64::MIN). -/
def i64Min : Int := -(2 ^ 63)

/-- Largest value of a wasm i64 (Rust i64::MAX). -/
def i64Max : Int := 2 ^ 63 - 1

/-- Modelled from the spec: the Scan Context. Its defining file
(src/scanner.rs) is not part of the excerpt; per the spec it owns, per scan, a
match bitmap sized exactly to the total compiled rule count, an ordered
sequence of matched RuleIds recording match order, and a reference to the
externally supplied pattern-match index keyed by PatternId. Per the spec,
touching a bit outside the bitmap is a no-op rather than a raise
(`List.set` is the identity out of range). -/
structure ScanContext where
  rules_matching_bitmap : List Bool
  rules_matching : List Nat
  pattern_matches : List (Nat × List Int)
deriving DecidableEq

/-- Reading bit `i` of a bitmap; a bit outside the bitmap reads as false. -/
def bitGet (bm : List Bool) (i : Nat) : Bool :=
  bm.getD i false

/-- Modelled from the spec: the recorded match offsets for a pattern in the
scan's pattern-match index (the index is produced by the external pattern
search subsystem and queried read-only). -/
def recordedOffsets (ctx : ScanContext) (pattern_id : Nat) : List Int :=
  match ctx.pattern_matches.lookup pattern_id with
  | some offsets => offsets
  | none => []

/-- Host function `rule_match` (src/wasm.rs, lines 151-158): invoked from
WebAssembly to notify when a rule matches. It sets the rule_id-th bit of
`rules_matching_bitmap` to 1 and pushes rule_id onto `rules_matching`. -/
def rule_match (ctx : ScanContext) (rule_id : Nat) : ScanContext :=
  { ctx with
    rules_matching_bitmap := ctx.rules_matching_bitmap.set rule_id true
    rules_matching := ctx.rules_matching ++ [rule_id] }

/-- Host function `is_pat_match` (src/wasm.rs, lines 164-170): the body is a
TODO stub that returns 0 and leaves the caller's context untouched. -/
def is_pat_match (ctx : ScanContext) (pattern_id : Nat) : ScanContext × Int :=
  (ctx, 0)

/-- Host function `is_pat_match_at` (src/wasm.rs, lines 177-184): the body is
a TODO stub that returns 0 and leaves the caller's context untouched. -/
def is_pat_match_at (ctx : ScanContext) (pattern_id : Nat) (offset : Int) :
    ScanContext × Int :=
  (ctx, 0)

/-- Host function `is_pat_match_in` (src/wasm.rs, lines 191-199): the body is
a TODO stub that returns 0 and leaves the caller's context untouched. -/
def is_pat_match_in (ctx : ScanContext) (pattern_id : Nat)
    (lower_bound upper_bound : Int) : ScanContext × Int :=
  (ctx, 0)

/-- One host-callback invocation, as recorded in a scan trace. -/
inductive HostCall where
  | ruleMatchCall (rule_id : Nat)
  | patMatchCall (pattern_id : Nat)
  | patMatchAtCall (pattern_id : Nat) (offset : Int)
  | patMatchInCall (pattern_id : Nat) (lower_bound upper_bound : Int)
deriving DecidableEq

/-- Effect of one host-callback invocation on the Scan Context. -/
def step (ctx : ScanContext) (c : HostCall) : ScanContext :=
  match c with
  | .ruleMatchCall rid => rule_match ctx rid
  | .patMatchCall pid => (is_pat_match ctx pid).1
  | .patMatchAtCall pid o => (is_pat_match_at ctx pid o).1
  | .patMatchInCall pid lo hi => (is_pat_match_in ctx pid lo hi).1

/-- A scan, seen from the host side: a finite sequence of host-callback
invocations folded over the Scan Context. -/
def runScan (ctx : ScanContext) (calls : List HostCall) : ScanContext :=
  calls.foldl step ctx

/-- Modelled from the spec: a fresh Scan Context for a rule set of `n` rules
has a bitmap sized exactly to the rule count (all bits clear), an empty match
list, and the externally supplied pattern-match index `idx`. -/
def freshContext (n : Nat) (idx : List (Nat × List Int)) : ScanContext :=
  ⟨List.replicate n false, [], idx⟩

namespace walrus

/-- wasm value types used by the generated module (walrus::ValType). -/
inductive ValType where
  | i32
  | i64
deriving DecidableEq

/-- A wasm function type: parameter list and result list. -/
structure FuncType where
  params : List ValType
  results : List ValType
deriving DecidableEq

/-- One instruction of a function body. The builder only accumulates
instructions supplied by the external code generator and never inspects them,
so they are kept as uninterpreted codes. -/
structure Instr where
  code : Nat
deriving DecidableEq

/-- An imported function entry: namespace, name and type (walrus import). -/
structure ImportFunc where
  ns : String
  name : String
  ty : FuncType
deriving DecidableEq

/-- A local (non-imported) function stored in the module. -/
structure Func where
  ty : FuncType
  body : List Instr
deriving DecidableEq

/-- walrus::Module, restricted to the parts src/wasm.rs touches: the type
list, the imported functions, the local functions, the exports, the locals
arena, and the function-id counter (imported and finished local functions
draw their FunctionId from one shared id space). -/
structure Module where
  types : List FuncType
  imports : List (Nat × ImportFunc)
  funcs : List (Nat × Func)
  exports : List (String × Nat)
  locals : List ValType
  nextFuncId : Nat
deriving DecidableEq

/-- walrus::Module::with_config: a fresh empty module. -/
def Module.withConfig : Module :=
  ⟨[], [], [], [], [], 0⟩

/-- module.types.add(params, results): registers a function type and returns
it. -/
def Module.addType (m : Module) (params results : List ValType) :
    Module × FuncType :=
  ({ m with types := m.types ++ [⟨params, results⟩] }, ⟨params, results⟩)

/-- module.add_import_func(ns, name, ty): registers an imported function and
returns its FunctionId. -/
def Module.addImportFunc (m : Module) (ns name : String) (ty : FuncType) :
    Module × Nat :=
  ({ m with
      imports := m.imports ++ [(m.nextFuncId, ⟨ns, name, ty⟩)]
      nextFuncId := m.nextFuncId + 1 },
   m.nextFuncId)

/-- module.locals.add(ty): allocates a local variable and returns its id. -/
def Module.addLocal (m : Module) (ty : ValType) : Module × Nat :=
  ({ m with locals := m.locals ++ [ty] }, m.locals.length)

/-- module.exports.add(name, fid): exports function `fid` under `name`. -/
def Module.addExport (m : Module) (name : String) (fid : Nat) : Module :=
  { m with exports := m.exports ++ [(name, fid)] }

/-- walrus::FunctionBuilder: an in-progress function with a fixed signature
and a growing body. -/
structure FunctionBuilder where
  ty : FuncType
  body : List Instr
deriving DecidableEq

/-- FunctionBuilder::new(&mut module.types, params, results): registers the
type in the module and opens an empty body. -/
def FunctionBuilder.new (m : Module) (params results : List ValType) :
    Module × FunctionBuilder :=
  ({ m with types := m.types ++ [⟨params, results⟩] }, ⟨⟨params, results⟩, []⟩)

/-- builder.finish(args, &mut module.funcs): adds the finished function to the
module and returns its FunctionId. -/
def FunctionBuilder.finish (fb : FunctionBuilder) (m : Module) : Module × Nat :=
  ({ m with
      funcs := m.funcs ++ [(m.nextFuncId, ⟨fb.ty, fb.body⟩)]
      nextFuncId := m.nextFuncId + 1 },
   m.nextFuncId)

end walrus

/-- Table with the function and variable handles used by the WebAssembly
module (WasmSymbols, src/wasm.rs lines 106-131). -/
structure WasmSymbols where
  rule_match : Nat
  is_pat_match : Nat
  is_pat_match_at : Nat
  is_pat_match_in : Nat
  i64_tmp : Nat
  i32_tmp : Nat
  exception_flag : Nat
deriving DecidableEq

/-- ModuleBuilder (src/wasm.rs, lines 32-36): the staged builder of the
WebAssembly module for a set of compiled rules. -/
structure ModuleBuilder where
  module : walrus.Module
  wasm_symbols : WasmSymbols
  main_fn : walrus.FunctionBuilder
deriving DecidableEq

/-- ModuleBuilder::new (src/wasm.rs, lines 40-74): registers the four fixed
host imports with their signatures, allocates the three scratch locals, and
opens an empty body for the main function (no parameters, no results). -/
def ModuleBuilder.new : ModuleBuilder :=
  let module := walrus.Module.withConfig
  let (module, ty) := module.addType [.i32] []
  let (module, rule_match) := module.addImportFunc "internal" "rule_match" ty
  let (module, ty) := module.addType [.i32] [.i32]
  let (module, is_pat_match) :=
    module.addImportFunc "internal" "is_pat_match" ty
  let (module, ty) := module.addType [.i32, .i64] [.i32]
  let (module, is_pat_match_at) :=
    module.addImportFunc "internal" "is_pat_match_at" ty
  let (module, ty) := module.addType [.i32, .i64, .i64] [.i32]
  let (module, is_pat_match_in) :=
    module.addImportFunc "internal" "is_pat_match_in" ty
  let (module, i64_tmp) := module.addLocal .i64
  let (module, i32_tmp) := module.addLocal .i32
  let (module, exception_flag) := module.addLocal .i32
  let wasm_symbols : WasmSymbols :=
    ⟨rule_match, is_pat_match, is_pat_match_at, is_pat_match_in,
     i64_tmp, i32_tmp, exception_flag⟩
  let (module, main_fn) := walrus.FunctionBuilder.new module [] []
  ⟨module, wasm_symbols, main_fn⟩

/-- Appending one instruction to the main function body, as done through the
InstrSeqBuilder returned by ModuleBuilder::main_fn. -/
def ModuleBuilder.appendToMain (b : ModuleBuilder) (i : walrus.Instr) :
    ModuleBuilder :=
  { b with main_fn := { b.main_fn with body := b.main_fn.body ++ [i] } }

/-- Repeated appends to the main function body: every builder reachable from
ModuleBuilder::new is of this shape for some instruction sequence. -/
def ModuleBuilder.appendAllToMain (b : ModuleBuilder)
    (instrs : List walrus.Instr) : ModuleBuilder :=
  instrs.foldl ModuleBuilder.appendToMain b

/-- ModuleBuilder::wasm_symbols: a cheap copy of the handle table. -/
def ModuleBuilder.wasmSymbols (b : ModuleBuilder) : WasmSymbols :=
  b.wasm_symbols

/-- ModuleBuilder::build (src/wasm.rs, lines 89-93): finishes the main
function into the module's function arena and exports it under "main". -/
def ModuleBuilder.build (self : ModuleBuilder) : walrus.Module :=
  let (module, main_fn) := self.main_fn.finish self.module
  module.addExport "main" main_fn

/-- The four host bindings installed in the process-wide LINKER
(src/wasm.rs, lines 133-148): each (namespace, name) is bound via func_wrap
to the host function of the same name, whose wasm signature is read off its
Rust type (RuleId and PatternId are i32 handles, offsets and bounds are i64,
the boolean results are i32). -/
def linkerBindings : List (String × String × walrus.FuncType) :=
  [("internal", "rule_match", ⟨[.i32], []⟩),
   ("internal", "is_pat_match", ⟨[.i32], [.i32]⟩),
   ("internal", "is_pat_match_at", ⟨[.i32, .i64], [.i32]⟩),
   ("internal", "is_pat_match_in", ⟨[.i32, .i64, .i64], [.i32]⟩)]

/-! Helper lemmas -/

/-- Reading a bit that was just set within range yields that bit; reading a
different bit is unchanged. -/
theorem bitGet_set_true (bm : List Bool) (j i : Nat)
    (h : i < bm.length) :
    (bitGet (bm.set j true) i = true ↔ bitGet bm i = true ∨ j = i) := by
  have hlen : i < (bm.set j true).length := by simpa using h
  unfold bitGet
  rw [List.getD_eq_getElem _ _ hlen, List.getD_eq_getElem _ _ h,
    List.getElem_set hlen]
  by_cases hji : j = i
  · simp [hji]
  · simp [hji]

/-- Every bit of a fresh all-false bitmap reads as false. -/
theorem bitGet_replicate_false (n i : Nat) :
    bitGet (List.replicate n false) i = false := by
  unfold bitGet
  rw [List.getD_eq_getElem?_getD, List.getElem?_replicate]
  by_cases h : i < n <;> simp [h]

/-- Every host-callback step preserves the bitmap length. -/
theorem step_bitmap_length (ctx : ScanContext) (c : HostCall) :
    (step ctx c).rules_matching_bitmap.length =
      ctx.rules_matching_bitmap.length := by
  cases c <;>
    simp [step, rule_match, is_pat_match, is_pat_match_at, is_pat_match_in]

/-- Invariant of a scan run: bit `i` of the bitmap is set after the run iff it
was set before or some ruleMatchCall with argument `i` occurs in the trace. -/
theorem runScan_bit (calls : List HostCall) : ∀ (ctx : ScanContext) (i : Nat),
    i < ctx.rules_matching_bitmap.length →
    (bitGet (runScan ctx calls).rules_matching_bitmap i = true ↔
      bitGet ctx.rules_matching_bitmap i = true ∨
        HostCall.ruleMatchCall i ∈ calls) := by
  induction calls with
  | nil =>
    intro ctx i h
    simp [runScan]
  | cons c cs ih =>
    intro ctx i h
    have hstep : i < (step ctx c).rules_matching_bitmap.length := by
      rw [step_bitmap_length]; exact h
    have hrun : runScan ctx (c :: cs) = runScan (step ctx c) cs := rfl
    rw [hrun, ih (step ctx c) i hstep]
    cases c with
    | ruleMatchCall rid =>
      have hbit := bitGet_set_true ctx.rules_matching_bitmap rid i h
      simp only [step, rule_match] at *
      rw [hbit]
      constructor
      · rintro ((hb | hji) | hc)
        · exact Or.inl hb
        · exact Or.inr (by simp [hji])
        · exact Or.inr (by simp [hc])
      · rintro (hb | hc)
        · exact Or.inl (Or.inl hb)
        · rcases List.mem_cons.mp hc with heq | hmem
          · exact Or.inl (Or.inr (by injection heq.symm))
          · exact Or.inr hmem
    | patMatchCall pid =>
      simp [step, is_pat_match]
    | patMatchAtCall pid o =>
      simp [step, is_pat_match_at]
    | patMatchInCall pid lo hi =>
      simp [step, is_pat_match_in]

/-- Repeated appends to the main function body change only that body, which
accumulates the instructions in call order. -/
theorem appendAllToMain_spec (instrs : List walrus.Instr) :
    ∀ b : ModuleBuilder,
    (b.appendAllToMain instrs).module = b.module ∧
    (b.appendAllToMain instrs).wasm_symbols = b.wasm_symbols ∧
    (b.appendAllToMain instrs).main_fn.ty = b.main_fn.ty ∧
    (b.appendAllToMain instrs).main_fn.body = b.main_fn.body ++ instrs := by
  induction instrs with
  | nil =>
    intro b
    simp [ModuleBuilder.appendAllToMain]
  | cons i is ih =>
    intro b
    have hstep : ModuleBuilder.appendAllToMain b (i :: is) =
        ModuleBuilder.appendAllToMain (b.appendToMain i) is := rfl
    rcases ih (b.appendToMain i) with ⟨h1, h2, h3, h4⟩
    refine ⟨?_, ?_, ?_, ?_⟩
    · rw [hstep, h1]; rfl
    · rw [hstep, h2]; rfl
    · rw [hstep, h3]; rfl
    · rw [hstep, h4]; simp [ModuleBuilder.appendToMain]

/-! Claim theorems -/

/-- C1: for every scan context and every rule_id indexing into the match
bitmap (whose length is the compiled rule count), invoking rule_match sets
bit rule_id of the bitmap to true and appends rule_id to the ordered match
list. -/
theorem rule_match_sets_bit_and_appends (ctx : ScanContext) (rule_id : Nat)
    (h : rule_id < ctx.rules_matching_bitmap.length) :
    bitGet (rule_match ctx rule_id).rules_matching_bitmap rule_id = true ∧
    (rule_match ctx rule_id).rules_matching =
      ctx.rules_matching ++ [rule_id] := by
  constructor
  · rw [show (rule_match ctx rule_id).rules_matching_bitmap =
        ctx.rules_matching_bitmap.set rule_id true from rfl,
      bitGet_set_true _ _ _ h]
    exact Or.inr rfl
  · rfl

/-- Witness for C1 at a concrete input: one rule, rule_id 0. -/
theorem rule_match_sets_bit_and_appends_witness :
    0 < (freshContext 1 []).rules_matching_bitmap.length ∧
    (bitGet (rule_match (freshContext 1 []) 0).rules_matching_bitmap 0 = true ∧
     (rule_match (freshContext 1 []) 0).rules_matching =
       (freshContext 1 []).rules_matching ++ [0]) :=
  ⟨by decide,
   rule_match_sets_bit_and_appends (freshContext 1 []) 0 (by decide)⟩

/-- C2: for every scan (a finite sequence of host-callback invocations from a
fresh Scan Context for a rule set of n rules) and every rule index i, bit i of
the match bitmap is set at the end iff rule_match was invoked with argument i
at least once during the scan. -/
theorem scan_bitmap_iff_reported (n : Nat) (idx : List (Nat × List Int))
    (calls : List HostCall) (i : Nat) (h : i < n) :
    (bitGet (runScan (freshContext n idx) calls).rules_matching_bitmap i = true
      ↔ HostCall.ruleMatchCall i ∈ calls) := by
  have hlen : i < (freshContext n idx).rules_matching_bitmap.length := by
    simpa [freshContext] using h
  have hfresh : bitGet (freshContext n idx).rules_matching_bitmap i = false :=
    bitGet_replicate_false n i
  rw [runScan_bit calls (freshContext n idx) i hlen, hfresh]
  simp

/-- Witness for C2 at a concrete input: two rules, a trace invoking
rule_match on rule 1, queried at i = 1. -/
theorem scan_bitmap_iff_reported_witness :
    1 < 2 ∧
    (bitGet (runScan (freshContext 2 [])
        [HostCall.ruleMatchCall 1]).rules_matching_bitmap 1 = true
      ↔ HostCall.ruleMatchCall 1 ∈ [HostCall.ruleMatchCall 1]) :=
  ⟨by decide, scan_bitmap_iff_reported 2 [] [HostCall.ruleMatchCall 1] 1
    (by decide)⟩

/-- C3 (code bug evidence): the pattern-match index records pattern 5 at
offsets 10 and 20, yet is_pat_match_at answers 0 at the recorded offset 10:
its body is a TODO stub that ignores the index, contradicting its own doc
comment ("Returns 1 if the pattern identified by pattern_id matches at
offset"). -/
theorem is_pat_match_at_ignores_recorded_offset :
    (is_pat_match_at (freshContext 3 [(5, [10, 20])]) 5 10).2 = 0 ∧
    (10 : Int) ∈ recordedOffsets (freshContext 3 [(5, [10, 20])]) 5 := by
  decide

/-- C4 counterexample: with a rule set of 0 rules, rule_id 5 is outside the
compiled set, yet rule_match is not a no-op: it appends 5 to the ordered
match list. -/
theorem rule_match_out_of_range_not_noop :
    rule_match (freshContext 0 []) 5 ≠ freshContext 0 [] ∧
    (rule_match (freshContext 0 []) 5).rules_matching = [5] := by
  decide

/-- C4 (amended): for ids outside the compiled set, the three query host
functions return 0 and rule_match leaves the bitmap unchanged, and no host
function raises; but rule_match still appends the out-of-range rule_id to the
ordered match list, so it is not a no-op. -/
theorem out_of_range_ids_behavior (ctx : ScanContext)
    (rule_id pattern_id : Nat) (o lo hi : Int)
    (h : ctx.rules_matching_bitmap.length ≤ rule_id) :
    (rule_match ctx rule_id).rules_matching_bitmap =
        ctx.rules_matching_bitmap ∧
    (rule_match ctx rule_id).rules_matching =
        ctx.rules_matching ++ [rule_id] ∧
    (is_pat_match ctx pattern_id).2 = 0 ∧
    (is_pat_match_at ctx pattern_id o).2 = 0 ∧
    (is_pat_match_in ctx pattern_id lo hi).2 = 0 := by
  refine ⟨?_, rfl, rfl, rfl, rfl⟩
  show ctx.rules_matching_bitmap.set rule_id true = ctx.rules_matching_bitmap
  exact List.set_eq_of_length_le h

/-- Witness for the amended C4 at a concrete input: empty rule set,
rule_id 5, pattern_id 7, arbitrary concrete offsets. -/
theorem out_of_range_ids_behavior_witness :
    (freshContext 0 []).rules_matching_bitmap.length ≤ 5 ∧
    ((rule_match (freshContext 0 []) 5).rules_matching_bitmap =
        (freshContext 0 []).rules_matching_bitmap ∧
     (rule_match (freshContext 0 []) 5).rules_matching =
        (freshContext 0 []).rules_matching ++ [5] ∧
     (is_pat_match (freshContext 0 []) 7).2 = 0 ∧
     (is_pat_match_at (freshContext 0 []) 7 3).2 = 0 ∧
     (is_pat_match_in (freshContext 0 []) 7 1 2).2 = 0) :=
  ⟨by decide, out_of_range_ids_behavior (freshContext 0 []) 5 7 3 1 2
    (by decide)⟩

/-- C5: for every scan context and pattern id, is_pat_match answers true (1)
iff is_pat_match_in over the full i64 range [i64Min, i64Max] answers true
(both are 0 on every input in this code). -/
theorem is_pat_match_iff_full_range (ctx : ScanContext) (pattern_id : Nat) :
    ((is_pat_match ctx pattern_id).2 = 1 ↔
      (is_pat_match_in ctx pattern_id i64Min i64Max).2 = 1) := by
  simp [is_pat_match, is_pat_match_in]

/-- C6: building any builder reachable from ModuleBuilder::new (after any
sequence of appends to the main function body) yields a module exporting
exactly one function, under the name "main"; it is the accumulated entry
function, with no parameters and no results. -/
theorem build_exports_single_main (instrs : List walrus.Instr) :
    ((ModuleBuilder.new.appendAllToMain instrs).build).exports =
      [("main", 4)] ∧
    ((ModuleBuilder.new.appendAllToMain instrs).build).funcs =
      [(4, ⟨⟨[], []⟩, instrs⟩)] := by
  rcases appendAllToMain_spec instrs ModuleBuilder.new with ⟨h1, _, h3, h4⟩
  unfold ModuleBuilder.build
  rw [h1]
  constructor
  · rfl
  · show walrus.Module.withConfig.funcs ++
      [(4, ⟨(ModuleBuilder.new.appendAllToMain instrs).main_fn.ty,
            (ModuleBuilder.new.appendAllToMain instrs).main_fn.body⟩)] = _
    rw [h3, h4]
    rfl

/-- C7: the (namespace, name, signature) triples of the four host imports
registered by ModuleBuilder::new — and hence the imports of every built
module — are exactly the bindings installed in the process-wide LINKER. -/
theorem builder_imports_match_linker (instrs : List walrus.Instr) :
    ((ModuleBuilder.new.appendAllToMain instrs).build).imports.map
        (fun p => (p.2.ns, p.2.name, p.2.ty)) = linkerBindings := by
  rcases appendAllToMain_spec instrs ModuleBuilder.new with ⟨h1, -, -, -⟩
  unfold ModuleBuilder.build
  rw [h1]
  rfl

/-- C8: each of the three pattern-query host functions leaves the Scan
Context completely unchanged. -/
theorem queries_leave_context_unchanged (ctx : ScanContext)
    (pattern_id : Nat) (offset lower_bound upper_bound : Int) :
    (is_pat_match ctx pattern_id).1 = ctx ∧
    (is_pat_match_at ctx pattern_id offset).1 = ctx ∧
    (is_pat_match_in ctx pattern_id lower_bound upper_bound).1 = ctx :=
  ⟨rfl, rfl, rfl⟩

/-- C9: rule_match follows an append-always policy: after two invocations
with the same in-range rule_id on a fresh context, the ordered match list
contains rule_id exactly twice while bit rule_id is set. -/
theorem rule_match_append_always (n : Nat) (idx : List (Nat × List Int))
    (rule_id : Nat) (h : rule_id < n) :
    (rule_match (rule_match (freshContext n idx) rule_id) rule_id).rules_matching = [rule_id, rule_id] ∧
    ((rule_match (rule_match (freshContext n idx) rule_id) rule_id).rules_matching).count rule_id = 2 ∧
    bitGet ((rule_match (rule_match (freshContext n idx) rule_id) rule_id).rules_matching_bitmap) rule_id = true := by
  refine ⟨rfl, by simp [rule_match, freshContext], ?_⟩
  have hlen : rule_id <
      ((rule_match (freshContext n idx) rule_id).rules_matching_bitmap).length := by
    simpa [rule_match, freshContext] using h
  rw [show (rule_match (rule_match (freshContext n idx) rule_id) rule_id).rules_matching_bitmap =
      ((rule_match (freshContext n idx) rule_id).rules_matching_bitmap).set
        rule_id true from rfl,
    bitGet_set_true _ _ _ hlen]
  exact Or.inr rfl

/-- Witness for C9 at a concrete input: one rule, rule_id 0 reported twice. -/
theorem rule_match_append_always_witness :
    0 < 1 ∧
    ((rule_match (rule_match (freshContext 1 []) 0) 0).rules_matching = [0, 0] ∧
     ((rule_match (rule_match (freshContext 1 []) 0) 0).rules_matching).count 0 = 2 ∧
     bitGet ((rule_match (rule_match (freshContext 1 []) 0) 0).rules_matching_bitmap) 0 = true) :=
  ⟨by decide, rule_match_append_always 1 [] 0 (by decide)⟩

/-- C10: each of the three pattern-query host functions returns 0 on every
input, independently of the pattern id, the offsets, and the contents of the
scan context's pattern-match index. -/
theorem queries_always_zero (ctx : ScanContext) (pattern_id : Nat)
    (offset lower_bound upper_bound : Int) :
    (is_pat_match ctx pattern_id).2 = 0 ∧
    (is_pat_match_at ctx pattern_id offset).2 = 0 ∧
    (is_pat_match_in ctx pattern_id lower_bound upper_bound).2 = 0 :=
  ⟨rfl, rfl, rfl⟩

end YaraX
